import Mathlib

/-!
Shallow embedding of the evm-golang interpreter (src/main.go).

Go machine integers (`uint64`) are modelled as `Nat` with explicit `% 2^64`
at every operation where Go's wrapping arithmetic matters.  `math/big.Int`
values are modelled as `Int`.  Byte slices are `List Nat` (each element a
byte value).  Fallible Go functions returning `error` are modelled with the
`Exc` result type; a Go runtime panic (slice index out of range) is the
distinguished `Exc.panic` outcome, and `Exc.fuelOut` is the fuel-exhaustion
artefact of the bounded interpreter (the Go loops are unbounded).
Stateful methods on `*EVM` become functions `EVM → Exc α × EVM`; following
Go's in-place mutation, an error return keeps all mutations applied before
the error.
-/

abbrev Byte := Nat

/-- MaxStackDepth constant from main.go. -/
def MaxStackDepth : Nat := 1024

/-- MaxMemorySize constant from main.go: 1 << 25 bytes (32 MiB). -/
def MaxMemorySize : Nat := 2 ^ 25

/-- DataType from main.go. -/
inductive DataType where
  | uint256
  | address
  | bytes32
deriving DecidableEq, Repr

/-- Value from main.go: a typed arbitrary-precision integer. -/
structure Value where
  type : DataType
  value : Int
deriving DecidableEq, Repr

/-- Error values produced by the Go code (each `fmt.Errorf` call site). -/
inductive Err where
  | stop                      -- "STOP"
  | outOfGas                  -- "out of gas"
  | stackOverflow             -- "stack overflow"
  | stackUnderflow            -- "stack underflow"
  | memLimit                  -- "memory size exceeded"
  | memOOB                    -- "memory access out of bounds"
  | pushOOB                   -- "push: out of bounds"
  | dupUnderflow              -- "dup: stack underflow"
  | swapUnderflow             -- "swap: stack underflow"
  | contractNotFound          -- "contract not found"
  | revertData                -- "revert with data"
  | unknownOpcode (b : Byte)  -- "unknown opcode: 0x%x"
deriving DecidableEq, Repr

/-- Result of a Go operation: normal value, error return, runtime panic,
or out of interpreter fuel (model artefact for the unbounded Go loops). -/
inductive Exc (α : Type) where
  | ok (a : α)
  | err (e : Err)
  | panic
  | fuelOut
deriving DecidableEq, Repr

/-- Go `big.Int.Uint64()`: the low 64 bits of the magnitude (math/big
stores a sign and a magnitude; Uint64 returns the low word of the
magnitude). -/
def bigUint64 (v : Int) : Nat := v.natAbs % 2 ^ 64

/-- Go `big.Int.SetBytes`: interpret a byte slice as a big-endian unsigned
integer. -/
def bytesToNat (bs : List Byte) : Nat := bs.foldl (fun acc b => acc * 256 + b) 0

/-- Little-endian base-256 digits, driven by a fuel argument so that the
recursion is structural (hence kernel-computable); `natToBytesLE` passes
`n` itself as fuel, which always suffices because a number has at most as
many base-256 digits as its own value. -/
def natToBytesLEAux : Nat → Nat → List Byte
  | 0, _ => []
  | fuel + 1, n => if n = 0 then [] else n % 256 :: natToBytesLEAux fuel (n / 256)

/-- Little-endian base-256 digits of a natural number (empty for 0). -/
def natToBytesLE (n : Nat) : List Byte := natToBytesLEAux n n

/-- Go `big.Int.Bytes()`: big-endian bytes of the magnitude, no leading
zeros, empty for 0. -/
def natToBytes (n : Nat) : List Byte := (natToBytesLE n).reverse

/-- The effect of `copy(contractAddress[:], addr.Bytes())` into a fresh
`[20]byte`: the big-endian bytes are copied left-aligned and the remainder
stays zero. -/
def toAddress20 (v : Int) : List Byte :=
  (natToBytes v.natAbs ++ List.replicate 20 0).take 20

/-- The effect of `copy(topics[i][:], topic.Value.Bytes())` into a fresh
`[32]byte`: big-endian bytes left-aligned, zero-padded. -/
def toTopic (v : Int) : List Byte :=
  (natToBytes v.natAbs ++ List.replicate 32 0).take 32

/-- Stack from main.go: the slice `data`, top of stack = last element. -/
abbrev Stack := List Value

/-- Stack.push from main.go: overflow check against MaxStackDepth, then
append at the end. -/
def Stack.push (s : Stack) (v : Value) : Exc Stack :=
  if s.length ≥ MaxStackDepth then .err .stackOverflow
  else .ok (s ++ [v])

/-- Stack.pop from main.go: underflow check, then remove and return the
last element. -/
def Stack.pop (s : Stack) : Exc (Value × Stack) :=
  match s.getLast? with
  | none => .err .stackUnderflow
  | some v => .ok (v, s.dropLast)

/-- Memory from main.go: the byte slice `data`. -/
abbrev Memory := List Byte

/-- The growth step inside Memory.store: when the current buffer is
shorter than the required end, allocate a zero-filled buffer of exactly
that size and copy the old contents over (`make` + `copy` in the Go
source). -/
def Memory.grow (m : Memory) (e : Nat) : Memory :=
  if m.length < e then m ++ List.replicate (e - m.length) 0 else m

/-- Memory.store from main.go.  The bounds check computes
`offset+uint64(len(value))` in wrapping 64-bit arithmetic.  If the check
passes, the buffer is grown (zero-filled) to that size when shorter, then
`copy(m.data[offset:], value)` writes the bytes; the slice expression
panics when `offset > len(m.data)`, and `copy` transfers
`min(len(value), len(m.data)-offset)` bytes. -/
def Memory.store (m : Memory) (offset : Nat) (value : List Byte) : Exc Memory :=
  let e := (offset + value.length) % 2 ^ 64
  if e > MaxMemorySize then .err .memLimit
  else
    let g := Memory.grow m e
    if offset ≤ g.length then
      let n := min value.length (g.length - offset)
      .ok (g.take offset ++ value.take n ++ g.drop (offset + n))
    else .panic

/-- Memory.load from main.go.  The bounds check computes `offset+size` in
wrapping 64-bit arithmetic; the slice expression `m.data[offset:offset+size]`
panics when `offset` exceeds the (wrapped) end. -/
def Memory.load (m : Memory) (offset size : Nat) : Exc (List Byte) :=
  let e := (offset + size) % 2 ^ 64
  if e > m.length then .err .memOOB
  else if offset ≤ e then .ok ((m.drop offset).take (e - offset))
  else .panic

/-- Storage from main.go: `map[string]*Value`.  The Go map is modelled as
an association list; assignment conses the new binding and lookup takes the
most recent one, which realises the map's overwrite semantics. -/
abbrev Storage := List (String × Value)

/-- Go map read `storage[k]` (`nil` when absent). -/
def Storage.get? (σ : Storage) (k : String) : Option Value :=
  (σ.find? (fun p => p.1 == k)).map Prod.snd

/-- Go map assignment `storage[k] = v`. -/
def Storage.set (σ : Storage) (k : String) (v : Value) : Storage :=
  (k, v) :: σ

/-- Contract from main.go. -/
structure Contract where
  address : List Byte
  code : List Byte
  storage : Storage
deriving DecidableEq, Repr

/-- Log from main.go. -/
structure Log where
  address : List Byte
  topics : List (List Byte)
  data : List Byte
deriving DecidableEq, Repr

/-- EVM from main.go (one call frame).  The `context` field carries only
read-only chain parameters never consulted by any opcode handler, so it is
not modelled.  The shared `contracts` map is an association list (overwrite
by consing, lookup takes the most recent binding). -/
structure EVM where
  stack : Stack
  memory : Memory
  contract : Contract
  pc : Nat
  gas : Nat
  contracts : List (List Byte × Contract)
  returnData : List Byte
  logs : List Log
  depth : Nat
deriving DecidableEq, Repr

/-- Go map read `evm.contracts[address]`. -/
def lookupContract (cs : List (List Byte × Contract)) (a : List Byte) : Option Contract :=
  (cs.find? (fun p => p.1 == a)).map Prod.snd

/-- State-passing monad for methods on `*EVM`: Go's in-place mutation plus
early return on error.  An error / panic / fuel-out keeps the state as
already mutated. -/
def EM (α : Type) : Type := EVM → Exc α × EVM

def EM.pure (a : α) : EM α := fun s => (.ok a, s)

def EM.bind (x : EM α) (f : α → EM β) : EM β := fun s =>
  match x s with
  | (.ok a, s') => f a s'
  | (.err e, s') => (.err e, s')
  | (.panic, s') => (.panic, s')
  | (.fuelOut, s') => (.fuelOut, s')

instance instEMMonad : Monad EM where
  pure := EM.pure
  bind := EM.bind

def EM.fail (e : Err) : EM α := fun s => (.err e, s)

def EM.panicNow : EM α := fun s => (.panic, s)

def EM.fuelOutNow : EM α := fun s => (.fuelOut, s)

def EM.get : EM EVM := fun s => (.ok s, s)

def EM.modify (f : EVM → EVM) : EM Unit := fun s => (.ok (), f s)

/-- Lift a pure `Exc` result (e.g. a `Memory.load`) into the monad; the
state is untouched. -/
def EM.liftExc (x : Exc α) : EM α := fun s =>
  match x with
  | .ok a => (.ok a, s)
  | .err e => (.err e, s)
  | .panic => (.panic, s)
  | .fuelOut => (.fuelOut, s)

/-- `evm.stack.pop()` as a frame operation. -/
def EVM.popEM : EM Value := fun s =>
  match Stack.pop s.stack with
  | .ok (v, rest) => (.ok v, { s with stack := rest })
  | .err e => (.err e, s)
  | .panic => (.panic, s)
  | .fuelOut => (.fuelOut, s)

/-- `evm.stack.push(v)` as a frame operation. -/
def EVM.pushEM (v : Value) : EM Unit := fun s =>
  match Stack.push s.stack v with
  | .ok st => (.ok (), { s with stack := st })
  | .err e => (.err e, s)
  | .panic => (.panic, s)
  | .fuelOut => (.fuelOut, s)

/-- useGas from main.go: check then decrement. -/
def EVM.useGas (cost : Nat) : EM Unit := fun s =>
  if s.gas < cost then (.err .outOfGas, s)
  else (.ok (), { s with gas := s.gas - cost })

/-- binaryOperation from main.go: charge gas, pop b then a, push op(a,b). -/
def EVM.binaryOperation (op : Int → Int → Int) (gasCost : Nat) : EM Unit := do
  EVM.useGas gasCost
  let b ← EVM.popEM
  let a ← EVM.popEM
  EVM.pushEM { type := .uint256, value := op a.value b.value }

/-- compareOperation from main.go: charge gas, pop b then a, push 1 or 0. -/
def EVM.compareOperation (op : Int → Int → Bool) (gasCost : Nat) : EM Unit := do
  EVM.useGas gasCost
  let b ← EVM.popEM
  let a ← EVM.popEM
  if op a.value b.value then EVM.pushEM { type := .uint256, value := 1 }
  else EVM.pushEM { type := .uint256, value := 0 }

/-- sload from main.go: charge gas, pop key, read
`Storage[key.Value.String()]` (zero Value when absent), push it. -/
def EVM.sload (gasCost : Nat) : EM Unit := do
  EVM.useGas gasCost
  let key ← EVM.popEM
  let s ← EM.get
  match s.contract.storage.get? (toString key.value) with
  | none => EVM.pushEM { type := .uint256, value := 0 }
  | some v => EVM.pushEM v

/-- sstore from main.go: charge gas, pop value then key, write
`Storage[key.Value.String()] = value`. -/
def EVM.sstore (gasCost : Nat) : EM Unit := do
  EVM.useGas gasCost
  let value ← EVM.popEM
  let key ← EVM.popEM
  EM.modify fun s =>
    { s with contract :=
        { s.contract with storage := s.contract.storage.set (toString key.value) value } }

/-- jump from main.go: charge gas, pop dest, set
`pc = dest.Value.Uint64() - 1` in wrapping 64-bit arithmetic ("-1 because
pc will be incremented after this"). -/
def EVM.jump (gasCost : Nat) : EM Unit := do
  EVM.useGas gasCost
  let dest ← EVM.popEM
  EM.modify fun s => { s with pc := (bigUint64 dest.value + (2 ^ 64 - 1)) % 2 ^ 64 }

/-- jumpi from main.go: charge gas, pop condition then dest; when the
condition's sign is nonzero set pc as `jump` does. -/
def EVM.jumpi (gasCost : Nat) : EM Unit := do
  EVM.useGas gasCost
  let condition ← EVM.popEM
  let dest ← EVM.popEM
  if condition.value ≠ 0 then
    EM.modify fun s => { s with pc := (bigUint64 dest.value + (2 ^ 64 - 1)) % 2 ^ 64 }
  else EM.pure ()

/-- push from main.go (PUSH with `size` immediate bytes): charge gas,
bounds-check `pc+1+size` against the code length, read the immediate bytes
big-endian, advance pc by `size`, push the value. -/
def EVM.push (size gasCost : Nat) : EM Unit := do
  EVM.useGas gasCost
  let s ← EM.get
  if (s.pc + 1 + size) % 2 ^ 64 > s.contract.code.length then EM.fail .pushOOB
  else
    let bytes := (s.contract.code.drop (s.pc + 1)).take size
    EM.modify fun st => { st with pc := (st.pc + size) % 2 ^ 64 }
    EVM.pushEM { type := .uint256, value := (bytesToNat bytes : Nat) }

/-- dup from main.go: charge gas, check `len(stack) < pos`, push
`stack.data[len-pos]` (reading without removing). -/
def EVM.dup (pos gasCost : Nat) : EM Unit := do
  EVM.useGas gasCost
  let s ← EM.get
  if s.stack.length < pos then EM.fail .dupUnderflow
  else
    match s.stack[s.stack.length - pos]? with
    | some v => EVM.pushEM v
    | none => EM.panicNow

/-- swap from main.go: charge gas, check `len(stack) <= pos`, exchange the
top element with the one `pos` positions below it. -/
def EVM.swap (pos gasCost : Nat) : EM Unit := do
  EVM.useGas gasCost
  let s ← EM.get
  if s.stack.length ≤ pos then EM.fail .swapUnderflow
  else
    let i := s.stack.length - 1
    let j := s.stack.length - 1 - pos
    match s.stack[i]?, s.stack[j]? with
    | some vi, some vj =>
        EM.modify fun st => { st with stack := (st.stack.set i vj).set j vi }
    | _, _ => EM.panicNow

/-- The topic-popping loop inside log from main.go: pops `topicCount`
values, first popped first, each packed into a 32-byte topic. -/
def EVM.popTopics : Nat → EM (List (List Byte))
  | 0 => EM.pure []
  | n + 1 => do
      let t ← EVM.popEM
      let rest ← EVM.popTopics n
      EM.pure (toTopic t.value :: rest)

/-- log from main.go: charge gas, pop size then offset, load the data from
memory, pop the topics, append a Log bound to the frame's contract
address. -/
def EVM.log (topicCount gasCost : Nat) : EM Unit := do
  EVM.useGas gasCost
  let size ← EVM.popEM
  let offset ← EVM.popEM
  let s ← EM.get
  let data ← EM.liftExc (Memory.load s.memory (bigUint64 offset.value) (bigUint64 size.value))
  let topics ← EVM.popTopics topicCount
  EM.modify fun st =>
    { st with logs := st.logs ++ [{ address := st.contract.address, topics := topics, data := data }] }

/-- createAddress from main.go: the placeholder copies
`sha256.New().Sum(nil)` (the SHA-256 of the empty input) into the 20-byte
address, ignoring both arguments.  The constant below is the first 20
bytes of that digest. -/
def createAddress (_callerAddress : List Byte) (_nonce : Nat) : List Byte :=
  [0xe3, 0xb0, 0xc4, 0x42, 0x98, 0xfc, 0x1c, 0x14, 0x9a, 0xfb,
   0xf4, 0xc8, 0x99, 0x6f, 0xb9, 0x24, 0x27, 0xae, 0x41, 0xe4]

/-- create from main.go: charge gas, pop size, offset, value, load the new
code from memory, derive an address, register the new contract, push the
address.  The Go map insert is modelled by consing (lookup takes the most
recent binding); the nonce argument `len(evm.contracts)` is the list
length, immaterial since `createAddress` ignores it. -/
def EVM.create (gasCost : Nat) : EM Unit := do
  EVM.useGas gasCost
  let size ← EVM.popEM
  let offset ← EVM.popEM
  let _value ← EVM.popEM
  let s ← EM.get
  let code ← EM.liftExc (Memory.load s.memory (bigUint64 offset.value) (bigUint64 size.value))
  let address := createAddress s.contract.address s.contracts.length
  let contract : Contract := { address := address, code := code, storage := [] }
  EM.modify fun st => { st with contracts := (address, contract) :: st.contracts }
  EVM.pushEM { type := .address, value := (bytesToNat address : Nat) }

/-- returnOp from main.go: charge gas, pop size then offset, load that
memory range, set the frame's returnData.  Note the Go function then
returns nil: it does not signal a halt. -/
def EVM.returnOp (gasCost : Nat) : EM Unit := do
  EVM.useGas gasCost
  let size ← EVM.popEM
  let offset ← EVM.popEM
  let s ← EM.get
  let data ← EM.liftExc (Memory.load s.memory (bigUint64 offset.value) (bigUint64 size.value))
  EM.modify fun st => { st with returnData := data }

/-- revert from main.go: like returnOp but finishes with the
"revert with data" error (the returnData mutation is kept, as in Go). -/
def EVM.revert (gasCost : Nat) : EM Unit := do
  EVM.useGas gasCost
  let size ← EVM.popEM
  let offset ← EVM.popEM
  let s ← EM.get
  let data ← EM.liftExc (Memory.load s.memory (bigUint64 offset.value) (bigUint64 size.value))
  EM.modify fun st => { st with returnData := data }
  EM.fail .revertData

/-- The seven operands popped by call (main.go lines 382-409), named as the
Go variables. -/
structure CallArgs where
  argsSize : Value
  argsOffset : Value
  retSize : Value
  retOffset : Value
  value : Value
  address : Value
  gasLimit : Value
deriving DecidableEq, Repr

/-- The pop sequence at the start of call from main.go: argsSize first
(top of stack), then argsOffset, retSize, retOffset, value, address,
gasLimit. -/
def EVM.callPopArgs : EM CallArgs := do
  let argsSize ← EVM.popEM
  let argsOffset ← EVM.popEM
  let retSize ← EVM.popEM
  let retOffset ← EVM.popEM
  let value ← EVM.popEM
  let address ← EVM.popEM
  let gasLimit ← EVM.popEM
  EM.pure { argsSize := argsSize, argsOffset := argsOffset, retSize := retSize,
            retOffset := retOffset, value := value, address := address,
            gasLimit := gasLimit }

/-- The callee loop inside call from main.go:
`for calleeEVM.pc < len(code) { if err := ExecuteOpcode(code[pc]); err != nil { return err } }`.
The source loop never increments `pc` (unlike the driver loop in main);
`exec` is the opcode interpreter and the `Nat` argument is iteration
fuel (the Go loop is unbounded). -/
def calleeRunWith (exec : Byte → EVM → Exc Unit × EVM) : Nat → EVM → Exc Unit × EVM
  | 0, s => (.fuelOut, s)
  | n + 1, s =>
    if h : s.pc < s.contract.code.length then
      match exec (s.contract.code.get ⟨s.pc, h⟩) s with
      | (.ok _, s') => calleeRunWith exec n s'
      | r => r
    else (.ok (), s)

/-- call from main.go: charge gas, pop the seven operands, load the call
data from the caller's memory, resolve the target contract (error
"contract not found" when absent), build a fresh callee frame with its own
stack/memory, `gas = gasLimit.Uint64()` and `depth+1`, run the callee loop,
then load `retSize` bytes at `retOffset` from the callee's memory into the
caller's returnData.  Any error from the callee loop is returned as-is.
The shared contracts map is modelled by handing the callee's registry back
to the caller on the success path. -/
def EVM.callWith (exec : Byte → EVM → Exc Unit × EVM) (fuel : Nat) (gasCost : Nat) : EM Unit := do
  EVM.useGas gasCost
  let args ← EVM.callPopArgs
  let s ← EM.get
  let _args ← EM.liftExc
    (Memory.load s.memory (bigUint64 args.argsOffset.value) (bigUint64 args.argsSize.value))
  let contractAddress := toAddress20 args.address.value
  match lookupContract s.contracts contractAddress with
  | none => EM.fail .contractNotFound
  | some contract =>
    let callee : EVM :=
      { stack := [], memory := [], contract := contract, pc := 0,
        gas := bigUint64 args.gasLimit.value, contracts := s.contracts,
        returnData := [], logs := [], depth := s.depth + 1 }
    match calleeRunWith exec fuel callee with
    | (.ok _, callee') => do
        let returnData ← EM.liftExc
          (Memory.load callee'.memory (bigUint64 args.retOffset.value)
            (bigUint64 args.retSize.value))
        EM.modify fun st => { st with returnData := returnData, contracts := callee'.contracts }
    | (.err e, _) => EM.fail e
    | (.panic, _) => EM.panicNow
    | (.fuelOut, _) => EM.fuelOutNow

/-- ExecuteOpcode's switch from main.go, parameterised by the handler for
CALL (which recurses into the interpreter). -/
def ExecuteOpcodeWith (callHandler : Nat → EM Unit) (opcode : Byte) : EM Unit :=
  match opcode with
  | 0x00 => EM.fail .stop
  | 0x01 => EVM.binaryOperation (fun a b => a + b) 3
  | 0x02 => EVM.binaryOperation (fun a b => a * b) 5
  | 0x03 => EVM.binaryOperation (fun a b => a - b) 3
  | 0x04 => EVM.binaryOperation (fun a b => if b = 0 then 0 else Int.ediv a b) 5
  | 0x10 => EVM.compareOperation (fun a b => decide (a < b)) 3
  | 0x11 => EVM.compareOperation (fun a b => decide (b < a)) 3
  | 0x14 => EVM.compareOperation (fun a b => a == b) 3
  | 0x54 => EVM.sload 200
  | 0x55 => EVM.sstore 20000
  | 0x56 => EVM.jump 8
  | 0x57 => EVM.jumpi 10
  | 0x60 => EVM.push 1 3
  | 0x80 => EVM.dup 1 3
  | 0x90 => EVM.swap 1 3
  | 0xa0 => EVM.log 0 375
  | 0xf0 => EVM.create 32000
  | 0xf1 => callHandler 40
  | 0xf3 => EVM.returnOp 0
  | 0xfd => EVM.revert 0
  | b => EM.fail (.unknownOpcode b)

/-- ExecuteOpcode from main.go, with fuel bounding the nesting of CALL and
the iterations of each callee loop (the Go recursion is unbounded). -/
def ExecuteOpcode : Nat → Byte → EVM → Exc Unit × EVM
  | 0, b, s => ExecuteOpcodeWith (fun _ => EM.fuelOutNow) b s
  | fuel + 1, b, s =>
      ExecuteOpcodeWith (fun gc => EVM.callWith (ExecuteOpcode fuel) fuel gc) b s

/-- Outcome of the driver loop in main. -/
inductive RunOutcome where
  | stopped (e : Option Err) (s : EVM)  -- loop exited; `some e` = break on error
  | panicked
  | outOfFuel (s : EVM)
deriving DecidableEq, Repr

/-- The driver loop in main:
`for pc < len(code) { if err := ExecuteOpcode(code[pc]); err != nil { break }; pc++ }`.
The increment is Go `uint64` arithmetic, hence the `% 2^64`. -/
def runLoopWith (exec : Byte → EVM → Exc Unit × EVM) : Nat → EVM → RunOutcome
  | 0, s => .outOfFuel s
  | n + 1, s =>
    if h : s.pc < s.contract.code.length then
      match exec (s.contract.code.get ⟨s.pc, h⟩) s with
      | (.ok _, s') => runLoopWith exec n { s' with pc := (s'.pc + 1) % 2 ^ 64 }
      | (.err e, s') => .stopped (some e) s'
      | (.panic, _) => .panicked
      | (.fuelOut, s') => .outOfFuel s'
    else .stopped none s

/-- The driver loop running the real interpreter. -/
def runLoop (fuel : Nat) (s : EVM) : RunOutcome :=
  runLoopWith (ExecuteOpcode fuel) fuel s

/-- Fresh frame as built by NewEVM plus the contract assignment in main:
empty stack and memory, pc 0, gas from the context's GasLimit. -/
def initEVM (code : List Byte) (gas : Nat) : EVM :=
  { stack := [], memory := [],
    contract := { address := List.replicate 20 0, code := code, storage := [] },
    pc := 0, gas := gas, contracts := [], returnData := [], logs := [], depth := 0 }

/-- The hard-coded bytecode from main: PUSH1 10, PUSH1 20, ADD, STOP. -/
def scenarioCode : List Byte := [0x60, 0x0a, 0x60, 0x14, 0x01, 0x00]

/-- A callee contract whose code is a single STOP, registered at the
address derived from the integer 5. -/
def c3Callee : Contract := { address := toAddress20 5, code := [0x00], storage := [] }

/-- A caller frame about to execute CALL (opcode 0xf1) with callee
`c3Callee` in the registry and operands gas_limit 100, address 5, value 0,
ret_offset 0, ret_size 0, args_offset 0, args_size 0 on the stack. -/
def c3Caller : EVM :=
  { stack := [⟨.uint256, 100⟩, ⟨.uint256, 5⟩, ⟨.uint256, 0⟩, ⟨.uint256, 0⟩,
              ⟨.uint256, 0⟩, ⟨.uint256, 0⟩, ⟨.uint256, 0⟩]
    memory := []
    contract := { address := List.replicate 20 0, code := [0xf1], storage := [] }
    pc := 0
    gas := 100
    contracts := [(toAddress20 5, c3Callee)]
    returnData := []
    logs := []
    depth := 0 }

/-- PUSH1 0, PUSH1 0, RETURN, PUSH1 7, STOP: code with an opcode after
RETURN. -/
def c4Code : List Byte := [0x60, 0x00, 0x60, 0x00, 0xf3, 0x60, 0x07, 0x00]

/-- A frame about to execute JUMP (opcode 0x56) with destination 0 on the
stack. -/
def c9State : EVM := { initEVM [0x56] 100 with stack := [⟨.uint256, 0⟩] }

/-- A frame about to execute JUMPI (opcode 0x57) with destination 0
(deeper) and the nonzero condition 1 (top) on the stack. -/
def c9StateI : EVM := { initEVM [0x57] 100 with stack := [⟨.uint256, 0⟩, ⟨.uint256, 1⟩] }

/-- A frame whose stack holds the seven distinct values 1..7 (7 on top),
about to have CALL pop its operands. -/
def c5State : EVM :=
  { stack := [⟨.uint256, 1⟩, ⟨.uint256, 2⟩, ⟨.uint256, 3⟩, ⟨.uint256, 4⟩,
              ⟨.uint256, 5⟩, ⟨.uint256, 6⟩, ⟨.uint256, 7⟩]
    memory := []
    contract := { address := List.replicate 20 0, code := [0xf1], storage := [] }
    pc := 0
    gas := 100
    contracts := []
    returnData := []
    logs := []
    depth := 0 }

/-- A frame with key 9 on the stack and empty contract storage, about to
execute SLOAD. -/
def c8StateA : EVM := { initEVM [0x54] 1000 with stack := [⟨.uint256, 9⟩] }

/-- A frame with key 9 (deeper) and value 7 (top) on the stack, about to
execute SSTORE. -/
def c8StateB : EVM := { initEVM [0x55] 30000 with stack := [⟨.uint256, 9⟩, ⟨.uint256, 7⟩] }

/-! Helper lemmas about the monad and the interpreter. -/

theorem EM.bind_def (x : EM α) (f : α → EM β) : x >>= f = EM.bind x f := rfl

theorem EM.pure_def (a : α) : (pure a : EM α) = EM.pure a := rfl

theorem exe_push1 (fuel : Nat) : ExecuteOpcode fuel 0x60 = EVM.push 1 3 := by
  cases fuel <;> rfl

theorem exe_add (fuel : Nat) :
    ExecuteOpcode fuel 0x01 = EVM.binaryOperation (fun a b => a + b) 3 := by
  cases fuel <;> rfl

theorem exe_stop (fuel : Nat) : ExecuteOpcode fuel 0x00 = EM.fail .stop := by
  cases fuel <;> rfl

theorem exe_jump (fuel : Nat) : ExecuteOpcode fuel 0x56 = EVM.jump 8 := by
  cases fuel <;> rfl

theorem exe_jumpi (fuel : Nat) : ExecuteOpcode fuel 0x57 = EVM.jumpi 10 := by
  cases fuel <;> rfl

/-- One iteration of the driver loop when the opcode handler succeeds: the
driver then increments pc in wrapping 64-bit arithmetic. -/
theorem runLoopWith_ok (exec : Byte → EVM → Exc Unit × EVM) (n : Nat) (s s' : EVM)
    (h : s.pc < s.contract.code.length)
    (hex : exec (s.contract.code.get ⟨s.pc, h⟩) s = (.ok (), s')) :
    runLoopWith exec (n + 1) s = runLoopWith exec n { s' with pc := (s'.pc + 1) % 2 ^ 64 } := by
  rw [runLoopWith, dif_pos h, hex]

/-- One iteration of the driver loop when the opcode handler returns an
error: the driver breaks out of the loop. -/
theorem runLoopWith_err (exec : Byte → EVM → Exc Unit × EVM) (n : Nat) (s s' : EVM) (e : Err)
    (h : s.pc < s.contract.code.length)
    (hex : exec (s.contract.code.get ⟨s.pc, h⟩) s = (.err e, s')) :
    runLoopWith exec (n + 1) s = .stopped (some e) s' := by
  rw [runLoopWith, dif_pos h, hex]

/-- Popping from a stack written as `l ++ [a]` yields `a` (the top is the
last element) and leaves `l`. -/
theorem Stack.pop_concat (l : Stack) (a : Value) : Stack.pop (l ++ [a]) = .ok (a, l) := by
  simp [Stack.pop, List.getLast?_concat, List.dropLast_concat]

/-- Frame-level version of `Stack.pop_concat`. -/
theorem EVM.popEM_concat (s : EVM) (l : Stack) (a : Value) (h : s.stack = l ++ [a]) :
    EVM.popEM s = (.ok a, { s with stack := l }) := by
  simp [EVM.popEM, h, Stack.pop_concat]

/-- A gas charge followed by anything fails as a whole, leaving the state
untouched, when the gas is short. -/
theorem bind_useGas_fail {c : Nat} {s : EVM} (k : Unit → EM Unit) (h : s.gas < c) :
    (EVM.useGas c >>= k) s = (.err .outOfGas, s) := by
  simp [EM.bind_def, EM.bind, EVM.useGas, if_pos h]

/-- A successful gas charge passes the gas-decremented state on. -/
theorem bind_useGas_ok {c : Nat} {s : EVM} {β : Type} (k : Unit → EM β) (h : ¬ s.gas < c) :
    (EVM.useGas c >>= k) s = k () { s with gas := s.gas - c } := by
  simp [EM.bind_def, EM.bind, EVM.useGas, if_neg h]

/-- A successful pop of the top element (the last of the list) passes the
value and the shortened stack on. -/
theorem bind_popEM {β : Type} (s : EVM) (l : Stack) (a : Value) (k : Value → EM β)
    (h : s.stack = l ++ [a]) :
    (EVM.popEM >>= k) s = k a { s with stack := l } := by
  simp [EM.bind_def, EM.bind, EVM.popEM_concat s l a h]

/-- Reading the frame state passes it on unchanged. -/
theorem bind_get {s : EVM} {β : Type} (k : EVM → EM β) :
    (EM.get >>= k) s = k s s := rfl

theorem Memory.grow_length (m : Memory) (e : Nat) :
    (Memory.grow m e).length = max m.length e := by
  unfold Memory.grow
  split <;> simp <;> omega

/-- Every byte position beyond the original length of a grown buffer holds
a zero. -/
theorem Memory.grow_getElem_ge (m : Memory) (e p : Nat) (hp : m.length ≤ p)
    (hlt : p < (Memory.grow m e).length) : (Memory.grow m e)[p] = 0 := by
  by_cases hme : m.length < e
  · simp only [Memory.grow, if_pos hme] at hlt ⊢
    rw [List.getElem_append_right hp]
    exact List.getElem_replicate ..
  · simp only [Memory.grow, if_neg hme] at hlt ⊢
    omega

/-- C1: running the program code `[0x60,0x0a, 0x60,0x14, 0x01, 0x00]`
(PUSH1 10, PUSH1 20, ADD, STOP) from a fresh frame with ample gas
(any gas ≥ 9) reaches the Stop halt (the driver loop breaks on the
"STOP" signal) with the stack holding exactly the single value 30,
having consumed exactly 9 units of gas (3 per PUSH1, 3 for ADD, 0 for
STOP). -/
theorem c1_scenario_a_push_add_stop (g : Nat) (hg : 9 ≤ g) :
    runLoop 10 (initEVM scenarioCode g) =
      .stopped (some .stop)
        { initEVM scenarioCode g with
          stack := [⟨.uint256, 30⟩]
          gas := g - 9
          pc := 5 } := by
  obtain ⟨d, rfl⟩ : ∃ d, g = d + 9 := ⟨g - 9, by omega⟩
  have h1 : (d + 9 < 3) = False := eq_false (by omega)
  have h2 : (d + 6 < 3) = False := eq_false (by omega)
  have h3 : (d + 3 < 3) = False := eq_false (by omega)
  have hx : d + 9 - 9 = d := by omega
  have hex1 : ExecuteOpcode 10 0x60 (initEVM scenarioCode (d + 9)) =
      (.ok (),
        { initEVM scenarioCode (d + 9) with
          gas := d + 6
          pc := 1
          stack := [⟨.uint256, 10⟩] }) := by
    rw [exe_push1]
    simp [EVM.push, EVM.useGas, EM.bind_def, EM.bind, EM.get, EM.modify, EM.fail,
          EVM.pushEM, Stack.push, EM.pure_def, EM.pure, initEVM, scenarioCode,
          bytesToNat, MaxStackDepth, h1, List.take, List.drop, List.foldl]
  have hex2 : ExecuteOpcode 10 0x60
      ({ initEVM scenarioCode (d + 9) with
         gas := d + 6
         pc := 2
         stack := [⟨.uint256, 10⟩] }) =
      (.ok (),
        { initEVM scenarioCode (d + 9) with
          gas := d + 3
          pc := 3
          stack := [⟨.uint256, 10⟩, ⟨.uint256, 20⟩] }) := by
    rw [exe_push1]
    simp [EVM.push, EVM.useGas, EM.bind_def, EM.bind, EM.get, EM.modify, EM.fail,
          EVM.pushEM, Stack.push, EM.pure_def, EM.pure, initEVM, scenarioCode,
          bytesToNat, MaxStackDepth, h2, List.take, List.drop, List.foldl]
  have hex3 : ExecuteOpcode 10 0x01
      ({ initEVM scenarioCode (d + 9) with
         gas := d + 3
         pc := 4
         stack := [⟨.uint256, 10⟩, ⟨.uint256, 20⟩] }) =
      (.ok (),
        { initEVM scenarioCode (d + 9) with
          gas := d
          pc := 4
          stack := [⟨.uint256, 30⟩] }) := by
    rw [exe_add]
    simp [EVM.binaryOperation, EVM.useGas, EM.bind_def, EM.bind, EM.get, EM.modify,
          EM.fail, EVM.popEM, EVM.pushEM, Stack.push, Stack.pop, EM.pure_def, EM.pure,
          initEVM, scenarioCode, MaxStackDepth, h3]
  have hex4 : ExecuteOpcode 10 0x00
      ({ initEVM scenarioCode (d + 9) with
         gas := d
         pc := 5
         stack := [⟨.uint256, 30⟩] }) =
      (.err .stop,
        { initEVM scenarioCode (d + 9) with
          gas := d
          pc := 5
          stack := [⟨.uint256, 30⟩] }) := by
    rw [exe_stop]; rfl
  rw [runLoop]
  show runLoopWith (ExecuteOpcode 10) (9 + 1) (initEVM scenarioCode (d + 9)) = _
  rw [runLoopWith_ok _ 9 _ _ (by simp [initEVM, scenarioCode]) hex1]
  show runLoopWith (ExecuteOpcode 10) (8 + 1)
      ({ initEVM scenarioCode (d + 9) with
         gas := d + 6
         pc := 2
         stack := [⟨.uint256, 10⟩] }) = _
  rw [runLoopWith_ok _ 8 _ _ (by simp [initEVM, scenarioCode]) hex2]
  show runLoopWith (ExecuteOpcode 10) (7 + 1)
      ({ initEVM scenarioCode (d + 9) with
         gas := d + 3
         pc := 4
         stack := [⟨.uint256, 10⟩, ⟨.uint256, 20⟩] }) = _
  rw [runLoopWith_ok _ 7 _ _ (by simp [initEVM, scenarioCode]) hex3]
  show runLoopWith (ExecuteOpcode 10) (6 + 1)
      ({ initEVM scenarioCode (d + 9) with
         gas := d
         pc := 5
         stack := [⟨.uint256, 30⟩] }) = _
  rw [runLoopWith_err _ 6 _ _ _ (by simp [initEVM, scenarioCode]) hex4]
  rw [hx]

/-- Witness for C1 at the concrete gas budget used by main (GasLimit
1000000). -/
theorem c1_scenario_a_push_add_stop_witness :
    9 ≤ 1000000 ∧
    runLoop 10 (initEVM scenarioCode 1000000) =
      .stopped (some .stop)
        { initEVM scenarioCode 1000000 with
          stack := [⟨.uint256, 30⟩]
          gas := 1000000 - 9
          pc := 5 } :=
  ⟨by decide, c1_scenario_a_push_add_stop 1000000 (by decide)⟩

/-- C2: charging gas fails with OutOfGas exactly when the cost exceeds the
remaining gas, and then nothing changes; on success the remaining gas
drops by exactly the cost (gas is a Nat, so it never goes negative).
Every opcode handler charges gas first, so a handler rejected for
insufficient gas returns with the whole frame state (stack, memory,
storage, everything) unchanged; in particular a frame with 2 gas
executing ADD (cost 3) fails with OutOfGas and is left untouched. -/
theorem c2_gas_check_then_mutate (s : EVM) (cost : Nat) :
    (s.gas < cost → EVM.useGas cost s = (.err .outOfGas, s))
  ∧ (cost ≤ s.gas → EVM.useGas cost s = (.ok (), { s with gas := s.gas - cost }))
  ∧ (s.gas < cost →
      (∀ op, EVM.binaryOperation op cost s = (.err .outOfGas, s))
    ∧ (∀ op, EVM.compareOperation op cost s = (.err .outOfGas, s))
    ∧ EVM.sload cost s = (.err .outOfGas, s)
    ∧ EVM.sstore cost s = (.err .outOfGas, s)
    ∧ EVM.jump cost s = (.err .outOfGas, s)
    ∧ EVM.jumpi cost s = (.err .outOfGas, s)
    ∧ (∀ size, EVM.push size cost s = (.err .outOfGas, s))
    ∧ (∀ pos, EVM.dup pos cost s = (.err .outOfGas, s))
    ∧ (∀ pos, EVM.swap pos cost s = (.err .outOfGas, s))
    ∧ (∀ tc, EVM.log tc cost s = (.err .outOfGas, s))
    ∧ EVM.create cost s = (.err .outOfGas, s)
    ∧ (∀ exec fuel, EVM.callWith exec fuel cost s = (.err .outOfGas, s))
    ∧ EVM.returnOp cost s = (.err .outOfGas, s)
    ∧ EVM.revert cost s = (.err .outOfGas, s))
  ∧ (s.gas = 2 → ∀ fuel, ExecuteOpcode fuel 0x01 s = (.err .outOfGas, s)) := by
  refine ⟨?_, ?_, ?_, ?_⟩
  · intro h; simp [EVM.useGas, if_pos h]
  · intro h; simp [EVM.useGas, Nat.not_lt.mpr h]
  · intro h
    refine ⟨?_, ?_, ?_, ?_, ?_, ?_, ?_, ?_, ?_, ?_, ?_, ?_, ?_, ?_⟩
    · intro op; exact bind_useGas_fail _ h
    · intro op; exact bind_useGas_fail _ h
    · exact bind_useGas_fail _ h
    · exact bind_useGas_fail _ h
    · exact bind_useGas_fail _ h
    · exact bind_useGas_fail _ h
    · intro size; exact bind_useGas_fail _ h
    · intro pos; exact bind_useGas_fail _ h
    · intro pos; exact bind_useGas_fail _ h
    · intro tc; exact bind_useGas_fail _ h
    · exact bind_useGas_fail _ h
    · intro exec fuel; exact bind_useGas_fail _ h
    · exact bind_useGas_fail _ h
    · exact bind_useGas_fail _ h
  · intro h fuel
    rw [exe_add]
    exact bind_useGas_fail _ (by omega)

/-- Witness for C2: a fresh frame with 2 gas rejects a 3-gas charge and
the ADD opcode, both leaving the frame untouched, while a 9-gas frame is
charged down to 6. -/
theorem c2_gas_check_then_mutate_witness :
    ((initEVM scenarioCode 2).gas < 3
      ∧ EVM.useGas 3 (initEVM scenarioCode 2) = (.err .outOfGas, initEVM scenarioCode 2))
  ∧ ((initEVM scenarioCode 2).gas = 2
      ∧ ExecuteOpcode 0 0x01 (initEVM scenarioCode 2)
          = (.err .outOfGas, initEVM scenarioCode 2))
  ∧ (3 ≤ (initEVM scenarioCode 9).gas
      ∧ EVM.useGas 3 (initEVM scenarioCode 9)
          = (.ok (), { initEVM scenarioCode 9 with gas := 9 - 3 })) :=
  ⟨⟨by decide, (c2_gas_check_then_mutate (initEVM scenarioCode 2) 3).1 (by decide)⟩,
   ⟨rfl, (c2_gas_check_then_mutate (initEVM scenarioCode 2) 3).2.2.2 rfl 0⟩,
   ⟨by decide, (c2_gas_check_then_mutate (initEVM scenarioCode 9) 3).2.1 (by decide)⟩⟩

/-- C3 (code bug): the spec says a CALL whose callee frame halts with Stop
copies the return range out of the callee's memory into the caller's
return_data and succeeds.  In the code a STOP executed by the callee is
the error "STOP", which the callee loop inside call returns as-is, so the
CALL fails and aborts the caller: here a CALL to a contract whose code is
the single byte 0x00 (STOP) returns the STOP error (with the caller's
seven operands popped and its gas charged), instead of succeeding with
return_data set.  (The callee loop also never increments pc, so RETURN,
whose handler returns nil, can never terminate a callee either.) -/
theorem c3_callee_stop_aborts_caller :
    ExecuteOpcode 2 0xf1 c3Caller =
      (.err .stop, { c3Caller with stack := [], gas := 60 }) := by decide

/-- C4 (code bug): the spec makes RETURN a terminal transition, but
returnOp returns nil, so the driver loop keeps going: running
PUSH1 0, PUSH1 0, RETURN, PUSH1 7, STOP executes the PUSH1 7 that follows
RETURN (the final stack is [7]) and only halts at the STOP. -/
theorem c4_return_does_not_halt_frame :
    runLoop 10 (initEVM c4Code 100) =
      .stopped (some .stop)
        { initEVM c4Code 100 with
          stack := [⟨.uint256, 7⟩]
          gas := 91
          pc := 7
          returnData := [] } := by decide

/-- C5 counterexample: with the stack holding 1,2,3,4,5,6,7 (7 on top),
the claim's pop order would bind gas_limit to the top value 7; the code
binds args_size to 7 and gas_limit to 1, the deepest of the seven. -/
theorem c5_call_pop_order_counterexample :
    EVM.callPopArgs c5State =
      (.ok { argsSize := ⟨.uint256, 7⟩, argsOffset := ⟨.uint256, 6⟩,
             retSize := ⟨.uint256, 5⟩, retOffset := ⟨.uint256, 4⟩,
             value := ⟨.uint256, 3⟩, address := ⟨.uint256, 2⟩,
             gasLimit := ⟨.uint256, 1⟩ },
       { c5State with stack := [] })
  ∧ ({ type := .uint256, value := 1 } : Value) ≠ { type := .uint256, value := 7 } := by
  decide

/-- C5 amended: CALL pops its seven operands in exactly this order:
args_size first (the top of stack), then args_offset, ret_size,
ret_offset, value, address, and gas_limit last (the reverse of the order
claimed). -/
theorem c5_call_pop_order (s : EVM) (rest : Stack) (x1 x2 x3 x4 x5 x6 x7 : Value)
    (h : s.stack = rest ++ [x1, x2, x3, x4, x5, x6, x7]) :
    EVM.callPopArgs s =
      (.ok { argsSize := x7, argsOffset := x6, retSize := x5, retOffset := x4,
             value := x3, address := x2, gasLimit := x1 },
       { s with stack := rest }) := by
  obtain ⟨st, mem, ctr, pc, gas, cs, rd, lg, dp⟩ := s
  simp only at h
  subst h
  simp only [EVM.callPopArgs]
  rw [bind_popEM _ (rest ++ [x1, x2, x3, x4, x5, x6]) x7 _ (by simp)]
  rw [bind_popEM _ (rest ++ [x1, x2, x3, x4, x5]) x6 _ (by simp)]
  rw [bind_popEM _ (rest ++ [x1, x2, x3, x4]) x5 _ (by simp)]
  rw [bind_popEM _ (rest ++ [x1, x2, x3]) x4 _ (by simp)]
  rw [bind_popEM _ (rest ++ [x1, x2]) x3 _ (by simp)]
  rw [bind_popEM _ (rest ++ [x1]) x2 _ (by simp)]
  rw [bind_popEM _ rest x1 _ (by simp)]
  rfl

/-- Witness for C5 at the stack 1..7 (7 on top). -/
theorem c5_call_pop_order_witness :
    c5State.stack =
      [] ++ [⟨.uint256, 1⟩, ⟨.uint256, 2⟩, ⟨.uint256, 3⟩, ⟨.uint256, 4⟩,
             ⟨.uint256, 5⟩, ⟨.uint256, 6⟩, ⟨.uint256, 7⟩]
  ∧ EVM.callPopArgs c5State =
      (.ok { argsSize := ⟨.uint256, 7⟩, argsOffset := ⟨.uint256, 6⟩,
             retSize := ⟨.uint256, 5⟩, retOffset := ⟨.uint256, 4⟩,
             value := ⟨.uint256, 3⟩, address := ⟨.uint256, 2⟩,
             gasLimit := ⟨.uint256, 1⟩ },
       { c5State with stack := [] }) :=
  ⟨rfl, c5_call_pop_order c5State [] _ _ _ _ _ _ _ rfl⟩

/-- C6 counterexample: for offset 2^64-8 and eight bytes the mathematical
sum 2^64 exceeds the 32 MiB limit, yet store does not fail with
MemoryLimitExceeded, because its guard computes the sum in wrapping 64-bit
arithmetic (the operation ends in a slice-bounds panic instead). -/
theorem c6_store_limit_counterexample :
    MaxMemorySize < (2 ^ 64 - 8) + 8
  ∧ Memory.store [] (2 ^ 64 - 8) [0, 0, 0, 0, 0, 0, 0, 0] ≠ .err .memLimit := by decide

/-- C6 amended: for offsets and sizes whose true sum stays below 2^64 (so
the 64-bit guard computes the real sum), store fails with
MemoryLimitExceeded exactly when offset + len(bytes) > 32 MiB; otherwise
it grows the buffer to exactly offset + len(bytes) when that exceeds the
current length, zero-filling the new region, and writes the bytes at
[offset, offset+len), so that load(offset, len) returns exactly those
bytes and every position that was only zero-fill-extended reads as
zero. -/
theorem c6_store_bounds_and_roundtrip (m : Memory) (offset : Nat) (value : List Byte)
    (hw : offset + value.length < 2 ^ 64) :
    (MaxMemorySize < offset + value.length →
      Memory.store m offset value = .err .memLimit)
  ∧ (offset + value.length ≤ MaxMemorySize →
      ∃ m', Memory.store m offset value = .ok m'
        ∧ m'.length = max m.length (offset + value.length)
        ∧ Memory.load m' offset value.length = .ok value
        ∧ (∀ p, m.length ≤ p → p < offset → Memory.load m' p 1 = .ok [0])) := by
  have he : (offset + value.length) % 2 ^ 64 = offset + value.length := Nat.mod_eq_of_lt hw
  constructor
  · intro hgt
    simp only [Memory.store, he]
    rw [if_pos hgt]
  · intro hle
    have hglen : (Memory.grow m (offset + value.length)).length
        = max m.length (offset + value.length) := Memory.grow_length ..
    have hoff : offset ≤ (Memory.grow m (offset + value.length)).length := by omega
    have hn : min value.length ((Memory.grow m (offset + value.length)).length - offset)
        = value.length := by omega
    refine ⟨(Memory.grow m (offset + value.length)).take offset ++ value
        ++ (Memory.grow m (offset + value.length)).drop (offset + value.length), ?_, ?_, ?_, ?_⟩
    · simp only [Memory.store, he]
      rw [if_neg (by omega), if_pos hoff, hn, List.take_length]
    · simp [List.length_take]
      omega
    · have hlen : ((Memory.grow m (offset + value.length)).take offset ++ value
          ++ (Memory.grow m (offset + value.length)).drop (offset + value.length)).length
          = (Memory.grow m (offset + value.length)).length := by
        simp [List.length_take]
        omega
      simp only [Memory.load, he]
      rw [if_neg (by omega), if_pos (by omega)]
      congr 1
      rw [List.append_assoc]
      rw [List.drop_left' (by simp [List.length_take]; omega)]
      rw [Nat.add_sub_cancel_left]
      rw [List.take_left' rfl]
    · intro p hmp hpo
      have hplt : p < ((Memory.grow m (offset + value.length)).take offset ++ value
          ++ (Memory.grow m (offset + value.length)).drop (offset + value.length)).length := by
        simp [List.length_take]
        omega
      have hp1 : (p + 1) % 2 ^ 64 = p + 1 := Nat.mod_eq_of_lt (by omega)
      simp only [Memory.load, hp1]
      rw [if_neg (by simp [List.length_take] at hplt ⊢; omega), if_pos (by omega)]
      rw [Nat.add_sub_cancel_left]
      rw [List.drop_eq_getElem_cons hplt]
      rw [List.take_succ_cons, List.take_zero]
      have h1 : p < ((Memory.grow m (offset + value.length)).take offset ++ value).length := by
        simp [List.length_take]
        omega
      have h2 : p < ((Memory.grow m (offset + value.length)).take offset).length := by
        simp [List.length_take]
        omega
      rw [List.getElem_append_left h1, List.getElem_append_left h2, List.getElem_take]
      rw [Memory.grow_getElem_ge m (offset + value.length) p hmp (by omega)]

/-- Witness for C6: storing two bytes at offset 5 into a three-byte
memory. -/
theorem c6_store_bounds_and_roundtrip_witness :
    5 + ([7, 8] : List Byte).length < 2 ^ 64
  ∧ ((MaxMemorySize < 5 + ([7, 8] : List Byte).length →
        Memory.store [1, 2, 3] 5 [7, 8] = .err .memLimit)
    ∧ (5 + ([7, 8] : List Byte).length ≤ MaxMemorySize →
        ∃ m', Memory.store [1, 2, 3] 5 [7, 8] = .ok m'
          ∧ m'.length = max ([1, 2, 3] : Memory).length (5 + ([7, 8] : List Byte).length)
          ∧ Memory.load m' 5 ([7, 8] : List Byte).length = .ok [7, 8]
          ∧ (∀ p, ([1, 2, 3] : Memory).length ≤ p → p < 5 →
              Memory.load m' p 1 = .ok [0]))) :=
  ⟨by decide, c6_store_bounds_and_roundtrip [1, 2, 3] 5 [7, 8] (by decide)⟩

/-- C7: push fails with StackOverflow exactly when the stack already holds
1024 values (and, being check-first, reports the error without producing a
new stack), otherwise it appends the value, growing the length by exactly
one; pop on an empty stack fails with StackUnderflow, and otherwise
removes and returns the top (last) element. -/
theorem c7_stack_push_pop_bounds (s : Stack) (v : Value) :
    (MaxStackDepth ≤ s.length → Stack.push s v = .err .stackOverflow)
  ∧ (s.length < MaxStackDepth →
      Stack.push s v = .ok (s ++ [v]) ∧ (s ++ [v]).length = s.length + 1)
  ∧ Stack.pop ([] : Stack) = .err .stackUnderflow
  ∧ (∀ h : s ≠ [], Stack.pop s = .ok (s.getLast h, s.dropLast)) := by
  refine ⟨?_, ?_, rfl, ?_⟩
  · intro h
    rw [Stack.push, if_pos h]
  · intro h
    refine ⟨?_, by simp⟩
    rw [Stack.push, if_neg (by omega)]
  · intro h
    rw [Stack.pop, List.getLast?_eq_getLast s h]

/-- Witness for C7: the 1025th push onto a full stack of 1024 zero values
overflows, a push onto a singleton succeeds, and pop returns the top. -/
theorem c7_stack_push_pop_bounds_witness :
    (MaxStackDepth ≤ (List.replicate 1024 (⟨.uint256, 0⟩ : Value)).length
      ∧ Stack.push (List.replicate 1024 ⟨.uint256, 0⟩) ⟨.uint256, 0⟩ = .err .stackOverflow)
  ∧ (([(⟨.uint256, 5⟩ : Value)] : Stack).length < MaxStackDepth
      ∧ Stack.push [⟨.uint256, 5⟩] ⟨.uint256, 6⟩ = .ok [⟨.uint256, 5⟩, ⟨.uint256, 6⟩])
  ∧ Stack.pop [(⟨.uint256, 5⟩ : Value)] = .ok (⟨.uint256, 5⟩, []) :=
  ⟨⟨by rw [List.length_replicate]; exact Nat.le.refl,
    (c7_stack_push_pop_bounds (List.replicate 1024 ⟨.uint256, 0⟩) ⟨.uint256, 0⟩).1
      (by rw [List.length_replicate]; exact Nat.le.refl)⟩,
   ⟨by decide,
    ((c7_stack_push_pop_bounds [⟨.uint256, 5⟩] ⟨.uint256, 6⟩).2.1
      (by decide)).1⟩,
   (c7_stack_push_pop_bounds [⟨.uint256, 5⟩] ⟨.uint256, 5⟩).2.2.2 (by decide)⟩

/-- C8: SLOAD of a key with no binding in the contract storage pushes the
zero Value; and after SSTORE writes v under key k, a subsequent SLOAD of k
pushes exactly v (the sstore-then-sload round trip), the storage keyed by
the decimal string of the key as in the Go map. -/
theorem c8_sload_default_and_roundtrip (s : EVM) (k v : Value) (rest rest2 : Stack) (g2 : Nat) :
    (s.stack = rest ++ [k] → rest.length < MaxStackDepth → 200 ≤ s.gas →
      s.contract.storage.get? (toString k.value) = none →
      EVM.sload 200 s =
        (.ok (),
          { s with
            stack := rest ++ [⟨.uint256, 0⟩]
            gas := s.gas - 200 }))
  ∧ (s.stack = rest ++ [k, v] → 20000 ≤ s.gas → rest2.length < MaxStackDepth → 200 ≤ g2 →
      EVM.sstore 20000 s =
        (.ok (),
          { s with
            stack := rest
            gas := s.gas - 20000
            contract :=
              { s.contract with
                storage := s.contract.storage.set (toString k.value) v } })
      ∧ EVM.sload 200
          { s with
            stack := rest2 ++ [k]
            gas := g2
            contract :=
              { s.contract with
                storage := s.contract.storage.set (toString k.value) v } } =
          (.ok (),
            { s with
              stack := rest2 ++ [v]
              gas := g2 - 200
              contract :=
                { s.contract with
                  storage := s.contract.storage.set (toString k.value) v } })) := by
  constructor
  · intro hstack hrest hgas hget
    simp only [EVM.sload]
    rw [bind_useGas_ok _ (by omega)]
    rw [bind_popEM _ rest k _ (by simp [hstack])]
    rw [bind_get]
    simp only
    rw [show ({ s with gas := s.gas - 200, stack := rest } : EVM).contract.storage.get?
          (toString k.value) = none from hget]
    simp [EVM.pushEM, Stack.push, if_neg (by simp; omega : ¬ rest.length ≥ MaxStackDepth)]
  · intro hstack hgas hrest2 hg2
    constructor
    · simp only [EVM.sstore]
      rw [bind_useGas_ok _ (by omega)]
      rw [bind_popEM _ (rest ++ [k]) v _ (by simp [hstack])]
      rw [bind_popEM _ rest k _ (by simp)]
      simp [EM.modify]
    · simp only [EVM.sload]
      rw [bind_useGas_ok _ (by simp; omega)]
      rw [bind_popEM _ rest2 k _ (by simp)]
      rw [bind_get]
      simp only
      have hfind : (({ s with
            stack := rest2
            gas := g2 - 200
            contract :=
              { s.contract with
                storage := s.contract.storage.set (toString k.value) v } } : EVM)).contract.storage.get?
            (toString k.value) = some v := by
        simp [Storage.get?, Storage.set]
      rw [hfind]
      simp [EVM.pushEM, Stack.push, if_neg (by simp; omega : ¬ rest2.length ≥ MaxStackDepth)]

/-- Witness for C8: SLOAD of the never-stored key 9 pushes zero, and after
SSTORE of 7 under key 9 an SLOAD of 9 pushes 7. -/
theorem c8_sload_default_and_roundtrip_witness :
    (c8StateA.stack = [] ++ [⟨.uint256, 9⟩]
      ∧ c8StateA.contract.storage.get? (toString (9 : Int)) = none
      ∧ EVM.sload 200 c8StateA =
          (.ok (),
            { c8StateA with
              stack := [] ++ [⟨.uint256, 0⟩]
              gas := c8StateA.gas - 200 }))
  ∧ (c8StateB.stack = [] ++ [⟨.uint256, 9⟩, ⟨.uint256, 7⟩]
      ∧ EVM.sstore 20000 c8StateB =
          (.ok (),
            { c8StateB with
              stack := []
              gas := c8StateB.gas - 20000
              contract :=
                { c8StateB.contract with
                  storage := c8StateB.contract.storage.set (toString (9 : Int)) ⟨.uint256, 7⟩ } })
      ∧ EVM.sload 200
          { c8StateB with
            stack := [] ++ [⟨.uint256, 9⟩]
            gas := 200
            contract :=
              { c8StateB.contract with
                storage := c8StateB.contract.storage.set (toString (9 : Int)) ⟨.uint256, 7⟩ } } =
          (.ok (),
            { c8StateB with
              stack := [] ++ [⟨.uint256, 7⟩]
              gas := 200 - 200
              contract :=
                { c8StateB.contract with
                  storage := c8StateB.contract.storage.set (toString (9 : Int)) ⟨.uint256, 7⟩ } })) :=
  ⟨⟨rfl, rfl,
    (c8_sload_default_and_roundtrip c8StateA ⟨.uint256, 9⟩ ⟨.uint256, 0⟩ [] [] 200).1
      rfl (by decide) (by decide) rfl⟩,
   ⟨rfl,
    (c8_sload_default_and_roundtrip c8StateB ⟨.uint256, 9⟩ ⟨.uint256, 7⟩ [] [] 200).2
      rfl (by decide) (by decide) (by decide)⟩⟩

/-- C9 counterexample: neither JUMP nor JUMPI with a nonzero condition
ends the frame as an implicit stop when the destination is 0.  Running the
one-byte program [0x56] with destination 0 on the stack (and likewise
[0x57] with destination 0 and condition 1), the driver's wrapping pc
increment lands back on offset 0 after the jump (first conjunct of each
pair: the loop is still running with pc = 0), and with more fuel the frame
re-executes the opcode at offset 0 until the emptied stack faults it with
StackUnderflow (second conjunct of each pair) - not the implicit stop the
claim predicts. -/
theorem c9_jump_zero_counterexample :
    (runLoop 1 c9State = .outOfFuel { c9State with stack := [], gas := 92, pc := 0 }
  ∧ runLoop 3 c9State =
      .stopped (some .stackUnderflow) { c9State with stack := [], gas := 84, pc := 0 })
  ∧ (runLoop 1 c9StateI = .outOfFuel { c9StateI with stack := [], gas := 90, pc := 0 }
  ∧ runLoop 3 c9StateI =
      .stopped (some .stackUnderflow) { c9StateI with stack := [], gas := 80, pc := 0 }) := by
  decide

/-- C9 amended: JUMP (and equally JUMPI with a nonzero condition) with
destination value 0 computes the new pc as 0 - 1 in wrapping unsigned
64-bit arithmetic, i.e. 2^64 - 1, but the driver loop's own pc increment
also wraps, (2^64 - 1) + 1 = 0, so execution continues at code offset 0
rather than terminating as an implicit stop: jumping to destination 0
behaves like any other jump.  The first pair of conjuncts settles JUMP
(opcode 0x56), the second pair JUMPI (opcode 0x57) popping its nonzero
condition c from the top and then the destination 0. -/
theorem c9_jump_zero_continues_at_zero (s : EVM) (rest : Stack) (t : DataType) (m n : Nat)
    (hstack : s.stack = rest ++ [⟨t, 0⟩]) (hgas : 8 ≤ s.gas)
    (hpc : s.pc < s.contract.code.length)
    (hop : s.contract.code.get ⟨s.pc, hpc⟩ = 0x56)
    (s2 : EVM) (rest2 : Stack) (td tc : DataType) (c : Int) (m2 n2 : Nat)
    (hstack2 : s2.stack = rest2 ++ [⟨td, 0⟩, ⟨tc, c⟩]) (hc : c ≠ 0) (hgas2 : 10 ≤ s2.gas)
    (hpc2 : s2.pc < s2.contract.code.length)
    (hop2 : s2.contract.code.get ⟨s2.pc, hpc2⟩ = 0x57) :
    (EVM.jump 8 s = (.ok (), { s with stack := rest, gas := s.gas - 8, pc := 2 ^ 64 - 1 })
  ∧ runLoopWith (ExecuteOpcode m) (n + 1) s
      = runLoopWith (ExecuteOpcode m) n { s with stack := rest, gas := s.gas - 8, pc := 0 })
  ∧ (EVM.jumpi 10 s2
      = (.ok (), { s2 with stack := rest2, gas := s2.gas - 10, pc := 2 ^ 64 - 1 })
  ∧ runLoopWith (ExecuteOpcode m2) (n2 + 1) s2
      = runLoopWith (ExecuteOpcode m2) n2
          { s2 with stack := rest2, gas := s2.gas - 10, pc := 0 }) := by
  have hj : EVM.jump 8 s
      = (.ok (), { s with stack := rest, gas := s.gas - 8, pc := 2 ^ 64 - 1 }) := by
    simp only [EVM.jump]
    rw [bind_useGas_ok _ (by omega)]
    rw [bind_popEM _ rest ⟨t, 0⟩ _ (by simp [hstack])]
    simp [EM.modify, bigUint64]
  have hji : EVM.jumpi 10 s2
      = (.ok (), { s2 with stack := rest2, gas := s2.gas - 10, pc := 2 ^ 64 - 1 }) := by
    simp only [EVM.jumpi]
    rw [bind_useGas_ok _ (by omega)]
    rw [bind_popEM _ (rest2 ++ [⟨td, 0⟩]) ⟨tc, c⟩ _ (by simp [hstack2])]
    rw [bind_popEM _ rest2 ⟨td, 0⟩ _ (by simp)]
    rw [if_pos hc]
    simp [EM.modify, bigUint64]
  refine ⟨⟨hj, ?_⟩, ⟨hji, ?_⟩⟩
  · have hex : ExecuteOpcode m (s.contract.code.get ⟨s.pc, hpc⟩) s
        = (.ok (), { s with stack := rest, gas := s.gas - 8, pc := 2 ^ 64 - 1 }) := by
      rw [hop, exe_jump]
      exact hj
    rw [runLoopWith_ok _ n _ _ hpc hex]
    norm_num
  · have hex2 : ExecuteOpcode m2 (s2.contract.code.get ⟨s2.pc, hpc2⟩) s2
        = (.ok (), { s2 with stack := rest2, gas := s2.gas - 10, pc := 2 ^ 64 - 1 }) := by
      rw [hop2, exe_jumpi]
      exact hji
    rw [runLoopWith_ok _ n2 _ _ hpc2 hex2]
    norm_num

/-- Witness for C9 at the one-byte programs [0x56] (destination 0 on the
stack) and [0x57] (destination 0 below the nonzero condition 1). -/
theorem c9_jump_zero_continues_at_zero_witness :
    c9State.stack = [] ++ [⟨.uint256, 0⟩]
  ∧ 8 ≤ c9State.gas
  ∧ c9StateI.stack = [] ++ [⟨.uint256, 0⟩, ⟨.uint256, 1⟩]
  ∧ (1 : Int) ≠ 0
  ∧ 10 ≤ c9StateI.gas
  ∧ ((EVM.jump 8 c9State
       = (.ok (), { c9State with stack := [], gas := c9State.gas - 8, pc := 2 ^ 64 - 1 })
    ∧ runLoopWith (ExecuteOpcode 1) (0 + 1) c9State
       = runLoopWith (ExecuteOpcode 1) 0
           { c9State with stack := [], gas := c9State.gas - 8, pc := 0 })
    ∧ (EVM.jumpi 10 c9StateI
       = (.ok (), { c9StateI with stack := [], gas := c9StateI.gas - 10, pc := 2 ^ 64 - 1 })
    ∧ runLoopWith (ExecuteOpcode 1) (0 + 1) c9StateI
       = runLoopWith (ExecuteOpcode 1) 0
           { c9StateI with stack := [], gas := c9StateI.gas - 10, pc := 0 })) :=
  ⟨rfl, by decide, rfl, by decide, by decide,
   c9_jump_zero_continues_at_zero c9State [] .uint256 1 0 rfl (by decide) (by decide) (by decide)
     c9StateI [] .uint256 .uint256 1 1 0 rfl (by decide) (by decide) (by decide) (by decide)⟩

/-- C10: the memory bounds guards compute offset + size in wrapping 64-bit
arithmetic, so at offset 2^64 - 1 with size 1 both store's
MemoryLimitExceeded check and load's MemoryOutOfBounds check pass -- even
though the offset alone dwarfs the 32 MiB limit and the (empty) current
length -- and each operation then dies in the out-of-range slice access
(the modelled panic) instead of returning its guard's error. -/
theorem c10_wrapping_guard_unsafe :
    Memory.store [] (2 ^ 64 - 1) [0] = .panic
  ∧ Memory.store [] (2 ^ 64 - 1) [0] ≠ .err .memLimit
  ∧ Memory.load [] (2 ^ 64 - 1) 1 = .panic
  ∧ Memory.load [] (2 ^ 64 - 1) 1 ≠ .err .memOOB
  ∧ MaxMemorySize < 2 ^ 64 - 1 := by decide
